import Mathlib

/-!
Shallow embedding of the Telegram bot webhook dispatcher of
`src/assets/src/index.ts` (both the Drizzle-bound and the Prisma-bound
variant) and of the D1/SQLite schema of `src/assets/src/db/schema.ts`,
together with proofs of the specified behaviour.

Timestamps (`CURRENT_TIMESTAMP`, Prisma `now()` / `@updatedAt`) are
abstracted as a `now : Nat` tick supplied to each request; the D1
database is modelled as in-memory tables with an auto-increment counter.
-/

/-- The sender of a Telegram update (`ctx.from` in grammY): a numeric
platform identifier plus optional display-name fields. -/
structure TelegramUser where
  id : Nat
  username : Option String
  first_name : Option String
  last_name : Option String
deriving Repr, DecidableEq

/-- A row of the `users` table of `src/assets/src/db/schema.ts`:
`id` auto-increment surrogate key, `telegram_id` text (unique),
optional `username`, `first_name`, `last_name`, and
`created_at` / `updated_at` text timestamps (modelled as ticks). -/
structure UserRow where
  id : Nat
  telegramId : String
  username : Option String
  firstName : Option String
  lastName : Option String
  createdAt : Nat
  updatedAt : Nat
deriving Repr, DecidableEq

/-- The `users` table: its rows plus the SQLite auto-increment counter. -/
structure UsersTable where
  rows : List UserRow
  nextId : Nat
deriving Repr, DecidableEq

/-- A row of the `settings` table of `src/assets/src/db/schema.ts`:
auto-increment `id`, `user_id` referencing `users.id` with
`onDelete: cascade`, `key`, optional `value`, timestamps. -/
structure SettingRow where
  id : Nat
  userId : Nat
  key : String
  value : Option String
  createdAt : Nat
  updatedAt : Nat
deriving Repr, DecidableEq

/-- The `settings` table: its rows plus the auto-increment counter. -/
structure SettingsTable where
  rows : List SettingRow
  nextId : Nat
deriving Repr, DecidableEq

/-- The D1 database bound to the worker: the two tables declared by
`src/assets/src/db/schema.ts`. -/
structure DbState where
  users : UsersTable
  settings : SettingsTable
deriving Repr, DecidableEq

/-- Decimal digits of `n` (most significant first), with explicit fuel so
that the definition is structurally recursive; empty for `n = 0`. -/
def decimalCharsAux : Nat → Nat → List Char
  | 0, _ => []
  | fuel + 1, n =>
    if n = 0 then []
    else decimalCharsAux fuel (n / 10) ++ [Nat.digitChar (n % 10)]

/-- The JavaScript conversion `String(user.id)` applied to a natural
number: its decimal-digit string. -/
def jsStringOfNat (n : Nat) : String :=
  if n = 0 then "0" else String.mk (decimalCharsAux n n)

/-- Numeric value of a decimal digit character. -/
def digitVal (c : Char) : Nat := c.toNat - 48

/-- Decimal decoder with accumulator, used to invert `decimalCharsAux`. -/
def decFrom : Nat → List Char → Nat
  | a, [] => a
  | a, c :: cs => decFrom (10 * a + digitVal c) cs

/-- The fixed welcome reply of the "start" branch of `index.ts`. -/
def welcomeText : String := "Welcome to the Bot! Send /help for help."

/-- The fixed reply of the "help" branch of `index.ts`. -/
def helpText : String := "Available commands:\n/start - Start\n/help - Help"

/-- The fixed reply of the generic-message branch of `index.ts`. -/
def messageReceivedText : String := "Message received!"

/-- The one failure mode modelled: the persistence upsert rejects. -/
inductive DbError where
  | failure
deriving Repr, DecidableEq

/-- Observable effects a handler performs, in program order: a write to
the `users` table (keyed as the variant keys it) or a sent reply. -/
inductive Event (κ : Type) where
  | dbWrite (key : κ)
  | reply (text : String)
deriving Repr, DecidableEq

/-- The reply texts of a trace, in order. -/
def replies {κ : Type} (tr : List (Event κ)) : List String :=
  tr.filterMap (fun e => match e with
    | Event.reply s => some s
    | Event.dbWrite _ => none)

/-- The database-write keys of a trace, in order. -/
def dbWrites {κ : Type} (tr : List (Event κ)) : List κ :=
  tr.filterMap (fun e => match e with
    | Event.reply _ => none
    | Event.dbWrite k => some k)

/-- The Drizzle chain `db.insert(users).values({...}).onConflictDoUpdate`
of `index.ts` lines 31-47: key `telegram_id = String(user.id)`; on
conflict with the unique index `users_telegram_id_unique`, overwrite
`username`, `first_name`, `last_name` and set
`updated_at = CURRENT_TIMESTAMP`; otherwise insert a fresh row whose
`id` auto-increments and whose timestamps take their column defaults. -/
def usersUpsert (now : Nat) (u : TelegramUser) (t : UsersTable) : UsersTable :=
  let tid := jsStringOfNat u.id
  let setFields : UserRow → UserRow := fun r =>
    { r with
      username := u.username
      firstName := u.first_name
      lastName := u.last_name
      updatedAt := now }
  let freshRow : UserRow :=
    { id := t.nextId
      telegramId := tid
      username := u.username
      firstName := u.first_name
      lastName := u.last_name
      createdAt := now
      updatedAt := now }
  if ∃ r ∈ t.rows, r.telegramId = tid then
    { t with rows := t.rows.map (fun r => if r.telegramId = tid then setFields r else r) }
  else
    { rows := t.rows ++ [freshRow], nextId := t.nextId + 1 }

/-- The "start" handler of the Drizzle variant (`index.ts` lines 28-50):
if `ctx.from` is present, await the upsert (whose failure propagates,
aborting the handler), then reply with the fixed welcome string.
`dbFails` is the behaviour of the awaited persistence call. -/
def startHandler (dbFails : Bool) (now : Nat) (sender : Option TelegramUser)
    (st : DbState) : Except DbError (DbState × List (Event String)) :=
  match sender with
  | some user =>
      if dbFails then Except.error DbError.failure
      else Except.ok ({ st with users := usersUpsert now user st.users },
        [Event.dbWrite (jsStringOfNat user.id), Event.reply welcomeText])
  | none => Except.ok (st, [Event.reply welcomeText])

/-- One inbound webhook update, as grammY dispatches it: a `/start`
command, a `/help` command, or any other message. -/
inductive Update where
  | start (sender : Option TelegramUser)
  | help (sender : Option TelegramUser)
  | message (sender : Option TelegramUser)
deriving Repr, DecidableEq

/-- The Drizzle-bound dispatcher of `index.ts` lines 28-63: route the
update to the start, help, or generic-message handler and return the
resulting database state and effect trace (or the propagated error). -/
def handleUpdate (dbFails : Bool) (now : Nat) (upd : Update)
    (st : DbState) : Except DbError (DbState × List (Event String)) :=
  match upd with
  | Update.start sender => startHandler dbFails now sender st
  | Update.help _ => Except.ok (st, [Event.reply helpText])
  | Update.message _ => Except.ok (st, [Event.reply messageReceivedText])

/-- A row of the Prisma `User` model used by the Prisma-bound variant of
`index.ts` (lines 152-171): the key is `telegramId = BigInt(user.id)`,
modelled as `Int`; the remaining columns are as written by the upsert,
with `createdAt` from `@default(now())` and `updatedAt` from
`@updatedAt` in the documented Prisma schema. -/
structure PrismaUserRow where
  id : Nat
  telegramId : Int
  username : Option String
  firstName : Option String
  lastName : Option String
  createdAt : Nat
  updatedAt : Nat
deriving Repr, DecidableEq

/-- The Prisma `User` table: its rows plus the auto-increment counter. -/
structure PrismaUsersTable where
  rows : List PrismaUserRow
  nextId : Nat
deriving Repr, DecidableEq

/-- The call `prisma.user.upsert` of `index.ts` lines 155-168:
`where telegramId = BigInt(user.id)`; `update` overwrites `username`,
`firstName`, `lastName` (with `updatedAt` refreshed by `@updatedAt`);
`create` inserts a fresh row with those fields and default timestamps. -/
def prismaUserUpsert (now : Nat) (u : TelegramUser)
    (t : PrismaUsersTable) : PrismaUsersTable :=
  let tid : Int := Int.ofNat u.id
  let setFields : PrismaUserRow → PrismaUserRow := fun r =>
    { r with
      username := u.username
      firstName := u.first_name
      lastName := u.last_name
      updatedAt := now }
  let freshRow : PrismaUserRow :=
    { id := t.nextId
      telegramId := tid
      username := u.username
      firstName := u.first_name
      lastName := u.last_name
      createdAt := now
      updatedAt := now }
  if ∃ r ∈ t.rows, r.telegramId = tid then
    { t with rows := t.rows.map (fun r => if r.telegramId = tid then setFields r else r) }
  else
    { rows := t.rows ++ [freshRow], nextId := t.nextId + 1 }

/-- The "start" handler of the Prisma variant (`index.ts` lines 152-171). -/
def prismaStartHandler (dbFails : Bool) (now : Nat) (sender : Option TelegramUser)
    (t : PrismaUsersTable) : Except DbError (PrismaUsersTable × List (Event Int)) :=
  match sender with
  | some user =>
      if dbFails then Except.error DbError.failure
      else Except.ok (prismaUserUpsert now user t,
        [Event.dbWrite (Int.ofNat user.id), Event.reply welcomeText])
  | none => Except.ok (t, [Event.reply welcomeText])

/-- The Prisma-bound dispatcher of `index.ts` lines 152-184. -/
def handleUpdatePrisma (dbFails : Bool) (now : Nat) (upd : Update)
    (t : PrismaUsersTable) : Except DbError (PrismaUsersTable × List (Event Int)) :=
  match upd with
  | Update.start sender => prismaStartHandler dbFails now sender t
  | Update.help _ => Except.ok (t, [Event.reply helpText])
  | Update.message _ => Except.ok (t, [Event.reply messageReceivedText])

/-- A Drizzle `users` row and a Prisma `User` row represent the same
user: both keys encode one and the same numeric Telegram identifier and
every other column agrees. -/
def rowAgrees (r : UserRow) (p : PrismaUserRow) : Prop :=
  ∃ n : Nat, r.telegramId = jsStringOfNat n ∧ p.telegramId = Int.ofNat n ∧
    r.id = p.id ∧ r.username = p.username ∧ r.firstName = p.firstName ∧
    r.lastName = p.lastName ∧ r.createdAt = p.createdAt ∧ r.updatedAt = p.updatedAt

/-- The two User stores are equivalent: same auto-increment counter and
row-by-row agreement. -/
def tablesAgree (t : UsersTable) (p : PrismaUsersTable) : Prop :=
  t.nextId = p.nextId ∧ List.Forall₂ rowAgrees t.rows p.rows

/-- Modelled from the spec: the persistence collaborator's
"upsert-by-composite-key operation on the Setting table" — no handler
under `src` exercises it; conflict detection follows the unique index
`settings_user_id_key_unique` on `(user_id, key)` declared in
`src/assets/src/db/schema.ts`, and on conflict the value and the
updated-timestamp are replaced, else a fresh row is inserted. -/
def settingsUpsert (now : Nat) (uid : Nat) (k : String) (v : Option String)
    (t : SettingsTable) : SettingsTable :=
  if ∃ r ∈ t.rows, r.userId = uid ∧ r.key = k then
    { t with rows := t.rows.map (fun r =>
        if r.userId = uid ∧ r.key = k then { r with value := v, updatedAt := now } else r) }
  else
    { rows := t.rows ++ [⟨t.nextId, uid, k, v, now, now⟩], nextId := t.nextId + 1 }

/-- The invariant enforced by the unique index
`settings_user_id_key_unique`: no two rows share `(user_id, key)`. -/
def settingsWf (t : SettingsTable) : Prop :=
  t.rows.Pairwise (fun a b => ¬(a.userId = b.userId ∧ a.key = b.key))

/-- Modelled from the spec: deletion of a User row, an operation no
handler under `src` exercises ("No deletion path is exercised by the
described logic beyond the cascade rule"); per the foreign key
`references(users.id, onDelete: cascade)` of `src/assets/src/db/schema.ts`,
deleting the users row with internal id `uid` also removes every
settings row whose `user_id` references it. -/
def deleteUser (uid : Nat) (st : DbState) : DbState :=
  { users := { rows := st.users.rows.filter (fun r => r.id != uid),
               nextId := st.users.nextId }
    settings := { rows := st.settings.rows.filter (fun r => r.userId != uid),
                  nextId := st.settings.nextId } }

/-- The sample sender used by the repository's own tests
(`src/assets/test/bot.test.ts`). -/
def sampleUser : TelegramUser :=
  { id := 123456, username := some "testuser",
    first_name := some "Test", last_name := none }

/-- A freshly migrated, empty database. -/
def emptyDb : DbState :=
  { users := { rows := [], nextId := 1 }, settings := { rows := [], nextId := 1 } }

/-- A database already holding a row for `sampleUser`. -/
def seededDb : DbState :=
  { users := { rows := [⟨1, jsStringOfNat sampleUser.id, none, none, none, 0, 0⟩],
               nextId := 2 }
    settings := { rows := [], nextId := 1 } }

/-- An empty Prisma-side User table. -/
def emptyPrismaTable : PrismaUsersTable := { rows := [], nextId := 1 }

theorem decimalCharsAux_zero (n : Nat) : decimalCharsAux 0 n = [] := rfl

theorem decimalCharsAux_succ (f n : Nat) : decimalCharsAux (f + 1) n =
    if n = 0 then []
    else decimalCharsAux f (n / 10) ++ [Nat.digitChar (n % 10)] := rfl

theorem decFrom_nil (a : Nat) : decFrom a [] = a := rfl

theorem decFrom_cons (a : Nat) (c : Char) (cs : List Char) :
    decFrom a (c :: cs) = decFrom (10 * a + digitVal c) cs := rfl

theorem decFrom_append (xs ys : List Char) : ∀ a : Nat,
    decFrom a (xs ++ ys) = decFrom (decFrom a xs) ys := by
  induction xs with
  | nil => intro a; rfl
  | cons c cs ih => intro a; exact ih (10 * a + digitVal c)

theorem digitVal_digitChar (d : Nat) (h : d < 10) :
    digitVal (Nat.digitChar d) = d := by
  interval_cases d <;> decide

theorem decFrom_decimalCharsAux : ∀ fuel n : Nat, n ≤ fuel → ∀ a : Nat,
    decFrom a (decimalCharsAux fuel n) =
      a * 10 ^ (decimalCharsAux fuel n).length + n := by
  intro fuel
  induction fuel with
  | zero =>
    intro n hn a
    have h0 : n = 0 := Nat.le_zero.mp hn
    subst h0
    rw [decimalCharsAux_zero, decFrom_nil]
    simp
  | succ f ih =>
    intro n hn a
    by_cases h0 : n = 0
    · subst h0
      rw [decimalCharsAux_succ, if_pos rfl, decFrom_nil]
      simp
    · have hdiv : n / 10 ≤ f := by
        have hlt : n / 10 < n := Nat.div_lt_self (Nat.pos_of_ne_zero h0) (by decide)
        omega
      rw [decimalCharsAux_succ, if_neg h0, decFrom_append, ih (n / 10) hdiv a]
      have hmod : digitVal (Nat.digitChar (n % 10)) = n % 10 :=
        digitVal_digitChar _ (Nat.mod_lt _ (by decide))
      rw [decFrom_cons, decFrom_nil, hmod]
      rw [List.length_append, List.length_singleton, Nat.pow_succ]
      have := Nat.div_add_mod n 10
      ring_nf
      omega

theorem decFrom_zero (n : Nat) : decFrom 0 (decimalCharsAux n n) = n := by
  have := decFrom_decimalCharsAux n n (Nat.le_refl n) 0
  simpa using this

theorem jsStringOfNat_injective : Function.Injective jsStringOfNat := by
  intro n m h
  unfold jsStringOfNat at h
  by_cases hn : n = 0 <;> by_cases hm : m = 0
  · omega
  · rw [if_pos hn, if_neg hm] at h
    have hlist : (['0'] : List Char) = decimalCharsAux m m := by
      have := congrArg String.data h
      simpa using this
    have hdec : decFrom 0 ['0'] = m := by rw [hlist]; exact decFrom_zero m
    have hval : decFrom 0 ['0'] = 0 := by decide
    omega
  · rw [if_neg hn, if_pos hm] at h
    have hlist : decimalCharsAux n n = (['0'] : List Char) := by
      have := congrArg String.data h
      simpa using this
    have hdec : decFrom 0 (decimalCharsAux n n) = n := decFrom_zero n
    rw [hlist] at hdec
    have hval : decFrom 0 ['0'] = 0 := by decide
    omega
  · rw [if_neg hn, if_neg hm] at h
    have hlist : decimalCharsAux n n = decimalCharsAux m m := by
      have := congrArg String.data h
      simpa using this
    have h1 := decFrom_zero n
    have h2 := decFrom_zero m
    rw [hlist] at h1
    omega

/-- C6: a "help" update performs no persistence operation — the database
state is returned untouched and the trace holds no write — and the reply
is exactly the fixed help string. -/
theorem help_no_persistence_fixed_reply (dbFails : Bool) (now : Nat)
    (sender : Option TelegramUser) (st : DbState) :
    ∃ tr, handleUpdate dbFails now (Update.help sender) st = Except.ok (st, tr) ∧
      replies tr = ["Available commands:\n/start - Start\n/help - Help"] ∧
      dbWrites tr = [] := by
  exact ⟨[Event.reply helpText], rfl, rfl, rfl⟩

/-- C7: a non-command message update performs no persistence operation
and the reply is exactly the fixed acknowledgment string. -/
theorem message_no_persistence_fixed_reply (dbFails : Bool) (now : Nat)
    (sender : Option TelegramUser) (st : DbState) :
    ∃ tr, handleUpdate dbFails now (Update.message sender) st = Except.ok (st, tr) ∧
      replies tr = ["Message received!"] ∧
      dbWrites tr = [] := by
  exact ⟨[Event.reply messageReceivedText], rfl, rfl, rfl⟩

/-- C9: a "start" update with no sender performs no persistence
operation, cannot fail (even when the persistence layer would), and
still replies with the fixed welcome string. -/
theorem start_without_sender (dbFails : Bool) (now : Nat) (st : DbState) :
    ∃ tr, handleUpdate dbFails now (Update.start none) st = Except.ok (st, tr) ∧
      replies tr = ["Welcome to the Bot! Send /help for help."] ∧
      dbWrites tr = [] := by
  exact ⟨[Event.reply welcomeText], rfl, rfl, rfl⟩

/-- C4: if the persistence upsert fails while handling a "start" update
with a sender, the error propagates out of the handler and no reply is
sent — the handler yields no successful result at all. -/
theorem start_upsert_failure_propagates (now : Nat) (u : TelegramUser)
    (st : DbState) :
    handleUpdate true now (Update.start (some u)) st =
      Except.error DbError.failure ∧
    ∀ st' tr, handleUpdate true now (Update.start (some u)) st ≠
      Except.ok (st', tr) := by
  refine ⟨rfl, ?_⟩
  intro st' tr h
  simp [handleUpdate, startHandler] at h

theorem usersUpsert_of_not_seen (now : Nat) (u : TelegramUser) (t : UsersTable)
    (h : ¬ ∃ r ∈ t.rows, r.telegramId = jsStringOfNat u.id) :
    (usersUpsert now u t).rows = t.rows ++
      [⟨t.nextId, jsStringOfNat u.id, u.username, u.first_name, u.last_name, now, now⟩] ∧
    (usersUpsert now u t).nextId = t.nextId + 1 := by
  simp only [usersUpsert]
  rw [if_neg h]
  exact ⟨rfl, rfl⟩

theorem usersUpsert_of_seen (now : Nat) (u : TelegramUser) (t : UsersTable)
    (h : ∃ r ∈ t.rows, r.telegramId = jsStringOfNat u.id) :
    (usersUpsert now u t).rows = t.rows.map (fun r =>
      if r.telegramId = jsStringOfNat u.id then
        { r with username := u.username, firstName := u.first_name,
                 lastName := u.last_name, updatedAt := now }
      else r) ∧
    (usersUpsert now u t).nextId = t.nextId := by
  simp only [usersUpsert]
  rw [if_pos h]
  exact ⟨rfl, rfl⟩

/-- C1: a "start" update from a sender whose external identifier has no
User row yet appends exactly one new row carrying that identifier and
the sender's optional username, first-name and last-name, leaves the
settings untouched, and replies with the fixed welcome string. -/
theorem start_unseen_inserts_row (now : Nat) (u : TelegramUser) (st : DbState)
    (h : ¬ ∃ r ∈ st.users.rows, r.telegramId = jsStringOfNat u.id) :
    ∃ st' tr, handleUpdate false now (Update.start (some u)) st = Except.ok (st', tr) ∧
      st'.users.rows = st.users.rows ++
        [⟨st.users.nextId, jsStringOfNat u.id, u.username, u.first_name,
          u.last_name, now, now⟩] ∧
      st'.settings = st.settings ∧
      replies tr = ["Welcome to the Bot! Send /help for help."] := by
  exact ⟨_, _, rfl, (usersUpsert_of_not_seen now u st.users h).1, rfl, rfl⟩

/-- C2: a "start" update from a sender whose external identifier already
has a User row adds no row: the row count is unchanged, every row keyed
by that identifier now carries the sender's current username, first-name
and last-name with its updated-timestamp refreshed, the row is still
present, and the reply is the same fixed welcome string. -/
theorem start_seen_refreshes_row (now : Nat) (u : TelegramUser) (st : DbState)
    (h : ∃ r ∈ st.users.rows, r.telegramId = jsStringOfNat u.id) :
    ∃ st' tr, handleUpdate false now (Update.start (some u)) st = Except.ok (st', tr) ∧
      st'.users.rows.length = st.users.rows.length ∧
      (∀ r' ∈ st'.users.rows, r'.telegramId = jsStringOfNat u.id →
        r'.username = u.username ∧ r'.firstName = u.first_name ∧
        r'.lastName = u.last_name ∧ r'.updatedAt = now) ∧
      (∃ r' ∈ st'.users.rows, r'.telegramId = jsStringOfNat u.id) ∧
      replies tr = ["Welcome to the Bot! Send /help for help."] := by
  obtain ⟨hrows, -⟩ := usersUpsert_of_seen now u st.users h
  refine ⟨_, _, rfl, ?_, ?_, ?_, rfl⟩
  · rw [hrows, List.length_map]
  · intro r' hr' htid
    rw [hrows] at hr'
    obtain ⟨r0, hr0, hfr0⟩ := List.mem_map.mp hr'
    by_cases hm : r0.telegramId = jsStringOfNat u.id
    · rw [if_pos hm] at hfr0
      subst hfr0
      exact ⟨rfl, rfl, rfl, rfl⟩
    · rw [if_neg hm] at hfr0
      subst hfr0
      exact absurd htid hm
  · obtain ⟨r, hr, htid⟩ := h
    refine ⟨{ r with
        username := u.username
        firstName := u.first_name
        lastName := u.last_name
        updatedAt := now }, ?_, htid⟩
    rw [hrows]
    have heq : (fun r' => if r'.telegramId = jsStringOfNat u.id then
        { r' with username := u.username, firstName := u.first_name,
                  lastName := u.last_name, updatedAt := now }
      else r') r = { r with
        username := u.username
        firstName := u.first_name
        lastName := u.last_name
        updatedAt := now } := by
      simp only [if_pos htid]
    exact heq ▸ List.mem_map_of_mem _ hr

/-- C10: when a "start" upsert hits an existing row, the rows of the
User store change at most in their username, first-name, last-name and
updated-timestamp: positionally, every row keeps its surrogate id, its
telegram_id and its created-timestamp, every row keyed by a different
telegram_id is entirely unchanged, no row is added or removed, the
auto-increment counter does not advance, and the settings are untouched. -/
theorem start_seen_frame (now : Nat) (u : TelegramUser) (st : DbState)
    (h : ∃ r ∈ st.users.rows, r.telegramId = jsStringOfNat u.id) :
    ∃ st' tr, handleUpdate false now (Update.start (some u)) st = Except.ok (st', tr) ∧
      st'.settings = st.settings ∧
      st'.users.nextId = st.users.nextId ∧
      st'.users.rows.length = st.users.rows.length ∧
      ∀ i : Nat, ∀ hi : i < st.users.rows.length, ∀ hi2 : i < st'.users.rows.length,
        ((st'.users.rows.get ⟨i, hi2⟩).id = (st.users.rows.get ⟨i, hi⟩).id ∧
         (st'.users.rows.get ⟨i, hi2⟩).telegramId =
           (st.users.rows.get ⟨i, hi⟩).telegramId ∧
         (st'.users.rows.get ⟨i, hi2⟩).createdAt =
           (st.users.rows.get ⟨i, hi⟩).createdAt) ∧
        ((st.users.rows.get ⟨i, hi⟩).telegramId ≠ jsStringOfNat u.id →
          st'.users.rows.get ⟨i, hi2⟩ = st.users.rows.get ⟨i, hi⟩) := by
  obtain ⟨hrows, hnext⟩ := usersUpsert_of_seen now u st.users h
  refine ⟨_, _, rfl, rfl, hnext, by rw [hrows, List.length_map], ?_⟩
  intro i hi hi2
  have hget : (usersUpsert now u st.users).rows.get ⟨i, hi2⟩ =
      if (st.users.rows.get ⟨i, hi⟩).telegramId = jsStringOfNat u.id then
        { st.users.rows.get ⟨i, hi⟩ with
          username := u.username
          firstName := u.first_name
          lastName := u.last_name
          updatedAt := now }
      else st.users.rows.get ⟨i, hi⟩ := by
    have := List.get_of_eq hrows ⟨i, hi2⟩
    rw [this, List.get_map]
  rw [hget]
  by_cases hm : (st.users.rows.get ⟨i, hi⟩).telegramId = jsStringOfNat u.id
  · rw [if_pos hm]
    exact ⟨⟨rfl, rfl, rfl⟩, fun hne => absurd hm hne⟩
  · rw [if_neg hm]
    exact ⟨⟨rfl, rfl, rfl⟩, fun _ => rfl⟩

/-- C5: on a successful "start" update with a sender, the trace places
the users-table write strictly before the welcome reply, and no reply in
the trace precedes any database write. -/
theorem start_write_before_reply (now : Nat) (u : TelegramUser) (st : DbState) :
    ∃ st' tr, handleUpdate false now (Update.start (some u)) st =
        Except.ok (st', tr) ∧
      (∃ i j, i < j ∧ tr.get? i = some (Event.dbWrite (jsStringOfNat u.id)) ∧
        tr.get? j = some (Event.reply welcomeText)) ∧
      (∀ i j k s, tr.get? i = some (Event.dbWrite k) →
        tr.get? j = some (Event.reply s) → i < j) := by
  refine ⟨_, [Event.dbWrite (jsStringOfNat u.id), Event.reply welcomeText],
    rfl, ⟨0, 1, by decide, rfl, rfl⟩, ?_⟩
  intro i j k s hi hj
  match i, hi with
  | 0, _ =>
    match j, hj with
    | 0, hj => simp [List.get?] at hj
    | 1, _ => decide
    | j + 2, hj => simp [List.get?] at hj
  | 1, hi => simp [List.get?] at hi
  | i + 2, hi => simp [List.get?] at hi

theorem prismaUserUpsert_of_not_seen (now : Nat) (u : TelegramUser)
    (t : PrismaUsersTable)
    (h : ¬ ∃ r ∈ t.rows, r.telegramId = Int.ofNat u.id) :
    (prismaUserUpsert now u t).rows = t.rows ++
      [⟨t.nextId, Int.ofNat u.id, u.username, u.first_name, u.last_name, now, now⟩] ∧
    (prismaUserUpsert now u t).nextId = t.nextId + 1 := by
  simp only [prismaUserUpsert]
  rw [if_neg h]
  exact ⟨rfl, rfl⟩

theorem prismaUserUpsert_of_seen (now : Nat) (u : TelegramUser)
    (t : PrismaUsersTable)
    (h : ∃ r ∈ t.rows, r.telegramId = Int.ofNat u.id) :
    (prismaUserUpsert now u t).rows = t.rows.map (fun r =>
      if r.telegramId = Int.ofNat u.id then
        { r with username := u.username, firstName := u.first_name,
                 lastName := u.last_name, updatedAt := now }
      else r) ∧
    (prismaUserUpsert now u t).nextId = t.nextId := by
  simp only [prismaUserUpsert]
  rw [if_pos h]
  exact ⟨rfl, rfl⟩

theorem rowAgrees_key_iff (r : UserRow) (p : PrismaUserRow)
    (h : rowAgrees r p) (m : Nat) :
    (r.telegramId = jsStringOfNat m ↔ p.telegramId = Int.ofNat m) := by
  obtain ⟨n, hr, hp, -⟩ := h
  constructor
  · intro hrm
    rw [hr] at hrm
    have hnm : n = m := jsStringOfNat_injective hrm
    rw [hp, hnm]
  · intro hpm
    rw [hp] at hpm
    have hnm : n = m := Int.ofNat.inj hpm
    rw [hr, hnm]

theorem exists_key_iff (l : List UserRow) (pl : List PrismaUserRow)
    (h : List.Forall₂ rowAgrees l pl) (m : Nat) :
    (∃ r ∈ l, r.telegramId = jsStringOfNat m) ↔
      (∃ p ∈ pl, p.telegramId = Int.ofNat m) := by
  induction h with
  | nil => simp
  | cons h1 h2 ih =>
    rw [List.exists_mem_cons_iff, List.exists_mem_cons_iff, ih,
      rowAgrees_key_iff _ _ h1 m]

theorem forall₂_map_both {α β : Type} {R S : α → β → Prop}
    {f : α → α} {g : β → β} :
    ∀ {l : List α} {pl : List β}, List.Forall₂ R l pl →
      (∀ a b, R a b → S (f a) (g b)) →
      List.Forall₂ S (l.map f) (pl.map g) := by
  intro l pl h hfg
  induction h with
  | nil => exact List.Forall₂.nil
  | cons h1 h2 ih => exact List.Forall₂.cons (hfg _ _ h1) ih

theorem forall₂_append_single {α β : Type} {R : α → β → Prop}
    {a : α} {b : β} :
    ∀ {l : List α} {pl : List β}, List.Forall₂ R l pl → R a b →
      List.Forall₂ R (l ++ [a]) (pl ++ [b]) := by
  intro l pl h hab
  induction h with
  | nil => exact List.Forall₂.cons hab List.Forall₂.nil
  | cons h1 h2 ih => exact List.Forall₂.cons h1 ih

theorem upsert_tablesAgree (now : Nat) (u : TelegramUser) (t : UsersTable)
    (p : PrismaUsersTable) (h : tablesAgree t p) :
    tablesAgree (usersUpsert now u t) (prismaUserUpsert now u p) := by
  obtain ⟨hnext, hrows⟩ := h
  by_cases hm : ∃ r ∈ t.rows, r.telegramId = jsStringOfNat u.id
  · have hpm : ∃ q ∈ p.rows, q.telegramId = Int.ofNat u.id :=
      (exists_key_iff _ _ hrows u.id).mp hm
    obtain ⟨hr1, hn1⟩ := usersUpsert_of_seen now u t hm
    obtain ⟨hr2, hn2⟩ := prismaUserUpsert_of_seen now u p hpm
    refine ⟨by rw [hn1, hn2, hnext], ?_⟩
    rw [hr1, hr2]
    refine forall₂_map_both hrows ?_
    intro r q hrq
    by_cases hk : r.telegramId = jsStringOfNat u.id
    · have hk2 : q.telegramId = Int.ofNat u.id := (rowAgrees_key_iff r q hrq u.id).mp hk
      rw [if_pos hk, if_pos hk2]
      obtain ⟨n, ha, hb, hid, -, -, -, hc, -⟩ := hrq
      exact ⟨n, ha, hb, hid, rfl, rfl, rfl, hc, rfl⟩
    · have hk2 : ¬ q.telegramId = Int.ofNat u.id :=
        fun hq => hk ((rowAgrees_key_iff r q hrq u.id).mpr hq)
      rw [if_neg hk, if_neg hk2]
      exact hrq
  · have hpm : ¬ ∃ q ∈ p.rows, q.telegramId = Int.ofNat u.id :=
      fun hq => hm ((exists_key_iff _ _ hrows u.id).mpr hq)
    obtain ⟨hr1, hn1⟩ := usersUpsert_of_not_seen now u t hm
    obtain ⟨hr2, hn2⟩ := prismaUserUpsert_of_not_seen now u p hpm
    refine ⟨by rw [hn1, hn2, hnext], ?_⟩
    rw [hr1, hr2]
    refine forall₂_append_single hrows ?_
    exact ⟨u.id, rfl, rfl, hnext, rfl, rfl, rfl, rfl, rfl⟩

/-- C3: behind the same update interface, the Drizzle-bound dispatcher
and the Prisma-bound dispatcher are behaviourally equivalent: starting
from equivalent User stores, any inbound update fails on one exactly
when it fails on the other, and on success both send the same reply
strings and leave the User stores equivalent again (same users keyed by
the same external identifier, same mutable fields and timestamps). -/
theorem dispatchers_equivalent (dbFails : Bool) (now : Nat) (upd : Update)
    (st : DbState) (p : PrismaUsersTable) (h : tablesAgree st.users p) :
    ((∃ e, handleUpdate dbFails now upd st = Except.error e) ↔
      (∃ e, handleUpdatePrisma dbFails now upd p = Except.error e)) ∧
    (∀ st' tr p' tr2,
      handleUpdate dbFails now upd st = Except.ok (st', tr) →
      handleUpdatePrisma dbFails now upd p = Except.ok (p', tr2) →
      tablesAgree st'.users p' ∧ replies tr = replies tr2) := by
  cases upd with
  | start sender =>
    cases sender with
    | none =>
      refine ⟨by simp [handleUpdate, handleUpdatePrisma, startHandler, prismaStartHandler], ?_⟩
      intro st' tr p' tr2 h1 h2
      simp only [handleUpdate, handleUpdatePrisma, startHandler, prismaStartHandler,
        Except.ok.injEq, Prod.mk.injEq] at h1 h2
      obtain ⟨hst, htr⟩ := h1
      obtain ⟨hp, htr2⟩ := h2
      subst hst; subst htr; subst hp; subst htr2
      exact ⟨h, rfl⟩
    | some user =>
      cases dbFails with
      | true =>
        refine ⟨by simp [handleUpdate, handleUpdatePrisma, startHandler, prismaStartHandler], ?_⟩
        intro st' tr p' tr2 h1 h2
        simp [handleUpdate, handleUpdatePrisma, startHandler, prismaStartHandler] at h1
      | false =>
        refine ⟨by simp [handleUpdate, handleUpdatePrisma, startHandler, prismaStartHandler], ?_⟩
        intro st' tr p' tr2 h1 h2
        simp only [handleUpdate, handleUpdatePrisma, startHandler, prismaStartHandler,
          Bool.false_eq_true, if_false, Except.ok.injEq, Prod.mk.injEq] at h1 h2
        obtain ⟨hst, htr⟩ := h1
        obtain ⟨hp, htr2⟩ := h2
        subst hst; subst htr; subst hp; subst htr2
        exact ⟨upsert_tablesAgree now user st.users p h, rfl⟩
  | help sender =>
    refine ⟨by simp [handleUpdate, handleUpdatePrisma], ?_⟩
    intro st' tr p' tr2 h1 h2
    simp only [handleUpdate, handleUpdatePrisma, Except.ok.injEq, Prod.mk.injEq] at h1 h2
    obtain ⟨hst, htr⟩ := h1
    obtain ⟨hp, htr2⟩ := h2
    subst hst; subst htr; subst hp; subst htr2
    exact ⟨h, rfl⟩
  | message sender =>
    refine ⟨by simp [handleUpdate, handleUpdatePrisma], ?_⟩
    intro st' tr p' tr2 h1 h2
    simp only [handleUpdate, handleUpdatePrisma, Except.ok.injEq, Prod.mk.injEq] at h1 h2
    obtain ⟨hst, htr⟩ := h1
    obtain ⟨hp, htr2⟩ := h2
    subst hst; subst htr; subst hp; subst htr2
    exact ⟨h, rfl⟩

theorem countP_eq_one_of_pairwise {α : Type} (p : α → Bool) :
    ∀ l : List α, l.Pairwise (fun a b => ¬(p a = true ∧ p b = true)) →
      (∃ a ∈ l, p a = true) → l.countP p = 1 := by
  intro l
  induction l with
  | nil => intro _ hex; simp at hex
  | cons a l ih =>
    intro hpw hex
    obtain ⟨ha, hrest⟩ := List.pairwise_cons.mp hpw
    by_cases hp : p a = true
    · rw [List.countP_cons_of_pos _ _ hp]
      have hzero : l.countP p = 0 := by
        rw [List.countP_eq_zero]
        intro b hb
        exact fun hpb => ha b hb ⟨hp, hpb⟩
      rw [hzero]
    · rw [List.countP_cons_of_neg _ _ hp]
      refine ih hrest ?_
      obtain ⟨b, hb, hpb⟩ := hex
      rcases List.mem_cons.mp hb with hba | hbl
      · exact absurd (hba ▸ hpb) hp
      · exact ⟨b, hbl, hpb⟩

theorem settingsUpsert_of_seen (now : Nat) (uid : Nat) (k : String)
    (v : Option String) (t : SettingsTable)
    (h : ∃ r ∈ t.rows, r.userId = uid ∧ r.key = k) :
    (settingsUpsert now uid k v t).rows = t.rows.map (fun r =>
      if r.userId = uid ∧ r.key = k then { r with value := v, updatedAt := now }
      else r) := by
  simp only [settingsUpsert]
  rw [if_pos h]

theorem settingsUpsert_of_not_seen (now : Nat) (uid : Nat) (k : String)
    (v : Option String) (t : SettingsTable)
    (h : ¬ ∃ r ∈ t.rows, r.userId = uid ∧ r.key = k) :
    (settingsUpsert now uid k v t).rows =
      t.rows ++ [⟨t.nextId, uid, k, v, now, now⟩] := by
  simp only [settingsUpsert]
  rw [if_neg h]

theorem settingsUpsert_countP_seen (now : Nat) (uid : Nat) (k : String)
    (v : Option String) (t : SettingsTable)
    (h : ∃ r ∈ t.rows, r.userId = uid ∧ r.key = k) :
    (settingsUpsert now uid k v t).rows.countP
        (fun r => decide (r.userId = uid ∧ r.key = k)) =
      t.rows.countP (fun r => decide (r.userId = uid ∧ r.key = k)) := by
  rw [settingsUpsert_of_seen now uid k v t h, List.countP_map]
  refine List.countP_congr ?_
  intro r _
  by_cases hm : r.userId = uid ∧ r.key = k
  · simp only [Function.comp_apply, if_pos hm]
  · simp only [Function.comp_apply, if_neg hm]

theorem mem_settingsUpsert_matches (now : Nat) (uid : Nat) (k : String)
    (v : Option String) (t : SettingsTable)
    (h : ∃ r ∈ t.rows, r.userId = uid ∧ r.key = k) :
    ∀ r ∈ (settingsUpsert now uid k v t).rows,
      r.userId = uid → r.key = k → r.value = v := by
  rw [settingsUpsert_of_seen now uid k v t h]
  intro r hr h1 h2
  obtain ⟨r0, hr0, hfr0⟩ := List.mem_map.mp hr
  by_cases hm : r0.userId = uid ∧ r0.key = k
  · rw [if_pos hm] at hfr0
    subst hfr0
    rfl
  · rw [if_neg hm] at hfr0
    subst hfr0
    exact absurd ⟨h1, h2⟩ hm

/-- C8: on a store satisfying the composite unique index
`settings_user_id_key_unique`, upserting a Setting for `(uid, k)` twice
in succession leaves exactly one row keyed `(uid, k)`, and that row
holds the second (latest) value; and deleting a User row removes every
Setting row whose `user_id` references it, removes no unrelated Setting
row, and removes the users row itself (cascade). -/
theorem setting_upsert_twice_and_cascade (now1 now2 : Nat) (uid : Nat)
    (k : String) (v1 v2 : Option String) (st : DbState)
    (hwf : settingsWf st.settings) :
    ((settingsUpsert now2 uid k v2 (settingsUpsert now1 uid k v1 st.settings)).rows.countP
        (fun r => decide (r.userId = uid ∧ r.key = k)) = 1 ∧
      ∀ r ∈ (settingsUpsert now2 uid k v2 (settingsUpsert now1 uid k v1 st.settings)).rows,
        r.userId = uid → r.key = k → r.value = v2) ∧
    (∀ d : Nat,
      (∀ r ∈ (deleteUser d st).settings.rows, r.userId ≠ d) ∧
      (∀ r ∈ (deleteUser d st).users.rows, r.id ≠ d) ∧
      (∀ r ∈ st.settings.rows, r.userId ≠ d → r ∈ (deleteUser d st).settings.rows)) := by
  constructor
  · have hcount1 : (settingsUpsert now1 uid k v1 st.settings).rows.countP
        (fun r => decide (r.userId = uid ∧ r.key = k)) = 1 := by
      by_cases h : ∃ r ∈ st.settings.rows, r.userId = uid ∧ r.key = k
      · rw [settingsUpsert_countP_seen now1 uid k v1 st.settings h]
        refine countP_eq_one_of_pairwise _ _ ?_ ?_
        · refine hwf.imp ?_
          intro a b hab ⟨hpa, hpb⟩
          have ha := of_decide_eq_true hpa
          have hb := of_decide_eq_true hpb
          exact hab ⟨ha.1.trans hb.1.symm, ha.2.trans hb.2.symm⟩
        · obtain ⟨r, hr, hm⟩ := h
          exact ⟨r, hr, decide_eq_true hm⟩
      · rw [settingsUpsert_of_not_seen now1 uid k v1 st.settings h,
          List.countP_append]
        have hzero : st.settings.rows.countP
            (fun r => decide (r.userId = uid ∧ r.key = k)) = 0 := by
          rw [List.countP_eq_zero]
          intro r hr
          simp only [decide_eq_true_eq]
          exact fun hm => h ⟨r, hr, hm⟩
        rw [hzero]
        simp
    have hex : ∃ r ∈ (settingsUpsert now1 uid k v1 st.settings).rows,
        r.userId = uid ∧ r.key = k := by
      have hpos : 0 < (settingsUpsert now1 uid k v1 st.settings).rows.countP
          (fun r => decide (r.userId = uid ∧ r.key = k)) := by omega
      obtain ⟨r, hr, hp⟩ := List.countP_pos.mp hpos
      exact ⟨r, hr, of_decide_eq_true hp⟩
    constructor
    · rw [settingsUpsert_countP_seen now2 uid k v2 _ hex]
      exact hcount1
    · exact mem_settingsUpsert_matches now2 uid k v2 _ hex
  · intro d
    refine ⟨?_, ?_, ?_⟩
    · intro r hr
      have := List.mem_filter.mp hr
      exact bne_iff_ne.mp this.2
    · intro r hr
      have := List.mem_filter.mp hr
      exact bne_iff_ne.mp this.2
    · intro r hr hne
      exact List.mem_filter.mpr ⟨hr, bne_iff_ne.mpr hne⟩

theorem start_unseen_inserts_row_witness :
    (¬ ∃ r ∈ emptyDb.users.rows, r.telegramId = jsStringOfNat sampleUser.id) ∧
    (∃ st' tr, handleUpdate false 7 (Update.start (some sampleUser)) emptyDb =
        Except.ok (st', tr) ∧
      st'.users.rows = emptyDb.users.rows ++
        [⟨emptyDb.users.nextId, jsStringOfNat sampleUser.id, sampleUser.username,
          sampleUser.first_name, sampleUser.last_name, 7, 7⟩] ∧
      st'.settings = emptyDb.settings ∧
      replies tr = ["Welcome to the Bot! Send /help for help."]) :=
  ⟨by decide, start_unseen_inserts_row 7 sampleUser emptyDb (by decide)⟩

theorem start_seen_refreshes_row_witness :
    (∃ r ∈ seededDb.users.rows, r.telegramId = jsStringOfNat sampleUser.id) ∧
    (∃ st' tr, handleUpdate false 9 (Update.start (some sampleUser)) seededDb =
        Except.ok (st', tr) ∧
      st'.users.rows.length = seededDb.users.rows.length ∧
      (∀ r' ∈ st'.users.rows, r'.telegramId = jsStringOfNat sampleUser.id →
        r'.username = sampleUser.username ∧ r'.firstName = sampleUser.first_name ∧
        r'.lastName = sampleUser.last_name ∧ r'.updatedAt = 9) ∧
      (∃ r' ∈ st'.users.rows, r'.telegramId = jsStringOfNat sampleUser.id) ∧
      replies tr = ["Welcome to the Bot! Send /help for help."]) :=
  ⟨by decide, start_seen_refreshes_row 9 sampleUser seededDb (by decide)⟩

theorem start_seen_frame_witness :
    (∃ r ∈ seededDb.users.rows, r.telegramId = jsStringOfNat sampleUser.id) ∧
    (∃ st' tr, handleUpdate false 9 (Update.start (some sampleUser)) seededDb =
        Except.ok (st', tr) ∧
      st'.settings = seededDb.settings ∧
      st'.users.nextId = seededDb.users.nextId ∧
      st'.users.rows.length = seededDb.users.rows.length ∧
      ∀ i : Nat, ∀ hi : i < seededDb.users.rows.length,
          ∀ hi2 : i < st'.users.rows.length,
        ((st'.users.rows.get ⟨i, hi2⟩).id = (seededDb.users.rows.get ⟨i, hi⟩).id ∧
         (st'.users.rows.get ⟨i, hi2⟩).telegramId =
           (seededDb.users.rows.get ⟨i, hi⟩).telegramId ∧
         (st'.users.rows.get ⟨i, hi2⟩).createdAt =
           (seededDb.users.rows.get ⟨i, hi⟩).createdAt) ∧
        ((seededDb.users.rows.get ⟨i, hi⟩).telegramId ≠ jsStringOfNat sampleUser.id →
          st'.users.rows.get ⟨i, hi2⟩ = seededDb.users.rows.get ⟨i, hi⟩)) :=
  ⟨by decide, start_seen_frame 9 sampleUser seededDb (by decide)⟩

theorem dispatchers_equivalent_witness :
    tablesAgree emptyDb.users emptyPrismaTable ∧
    (((∃ e, handleUpdate false 7 (Update.start (some sampleUser)) emptyDb =
        Except.error e) ↔
      (∃ e, handleUpdatePrisma false 7 (Update.start (some sampleUser)) emptyPrismaTable =
        Except.error e)) ∧
    (∀ st' tr p' tr2,
      handleUpdate false 7 (Update.start (some sampleUser)) emptyDb =
        Except.ok (st', tr) →
      handleUpdatePrisma false 7 (Update.start (some sampleUser)) emptyPrismaTable =
        Except.ok (p', tr2) →
      tablesAgree st'.users p' ∧ replies tr = replies tr2)) :=
  ⟨⟨rfl, List.Forall₂.nil⟩,
    dispatchers_equivalent false 7 (Update.start (some sampleUser)) emptyDb
      emptyPrismaTable ⟨rfl, List.Forall₂.nil⟩⟩

theorem setting_upsert_twice_and_cascade_witness :
    settingsWf emptyDb.settings ∧
    (((settingsUpsert 4 1 "theme" (some "dark")
          (settingsUpsert 3 1 "theme" (some "light") emptyDb.settings)).rows.countP
        (fun r => decide (r.userId = 1 ∧ r.key = "theme")) = 1 ∧
      ∀ r ∈ (settingsUpsert 4 1 "theme" (some "dark")
          (settingsUpsert 3 1 "theme" (some "light") emptyDb.settings)).rows,
        r.userId = 1 → r.key = "theme" → r.value = some "dark") ∧
    (∀ d : Nat,
      (∀ r ∈ (deleteUser d emptyDb).settings.rows, r.userId ≠ d) ∧
      (∀ r ∈ (deleteUser d emptyDb).users.rows, r.id ≠ d) ∧
      (∀ r ∈ emptyDb.settings.rows, r.userId ≠ d →
        r ∈ (deleteUser d emptyDb).settings.rows))) :=
  ⟨List.Pairwise.nil,
    setting_upsert_twice_and_cascade 3 4 1 "theme" (some "light") (some "dark")
      emptyDb List.Pairwise.nil⟩
